import Mathlib

/-!
Shallow embedding of the Executive Filing Monitor dashboard (src/script.js).

The source is browser-side JavaScript.  DOM reads/writes are modelled by
passing the read values as parameters and returning the displayed data;
JavaScript strings are Lean `String`s, with the handful of string methods
the code uses (`trim`, `split(',')`, `toUpperCase`, `includes`)
re-implemented over `List Char` so that everything reduces in the kernel;
JavaScript numbers are modelled as `Int`; `new Date(s)` subtraction-based
comparators are modelled by an arbitrary parse function `jsDate : String → Int`
passed as a parameter; JavaScript `Array.prototype.sort`, which is required
to be stable, is modelled by `List.mergeSort` with `le a b` meaning
"comparator a b ≤ 0".
-/

/-- Model of JavaScript `String.prototype.trim` on the character list. -/
def trimChars (l : List Char) : List Char :=
  ((l.dropWhile Char.isWhitespace).reverse.dropWhile Char.isWhitespace).reverse

/-- Model of JavaScript `String.prototype.trim`. -/
def jsTrim (s : String) : String :=
  ⟨trimChars s.data⟩

/-- Accumulator-style splitting of a character list at a separator character. -/
def splitCharAux : List Char → Char → List Char → List (List Char)
  | [], _, acc => [acc.reverse]
  | c :: cs, sep, acc =>
    if c == sep then acc.reverse :: splitCharAux cs sep []
    else splitCharAux cs sep (c :: acc)

/-- Model of JavaScript `String.prototype.split` with a one-character separator. -/
def jsSplit (s : String) (sep : Char) : List String :=
  (splitCharAux s.data sep []).map (fun l => ⟨l⟩)

/-- Model of JavaScript `String.prototype.toUpperCase` (ASCII letters). -/
def jsToUpper (s : String) : String :=
  ⟨s.data.map Char.toUpper⟩

/-- Does the first character list start with the second one? -/
def charStartsWith : List Char → List Char → Bool
  | _, [] => true
  | [], _ :: _ => false
  | a :: as, b :: bs => a == b && charStartsWith as bs

/-- Does the first character list contain the second one as a contiguous run? -/
def charContainsSeq (l sub : List Char) : Bool :=
  match l with
  | [] => charStartsWith [] sub
  | _ :: rest => charStartsWith l sub || charContainsSeq rest sub

/-- Model of JavaScript `String.prototype.includes` (substring containment). -/
def jsIncludes (s sub : String) : Bool :=
  charContainsSeq s.data sub.data

/-- Model of JavaScript `array.join('<br>')`. -/
def joinBr : List String → String
  | [] => ""
  | [d] => d
  | d :: rest => d ++ "<br>" ++ joinBr rest

/-- A Form 4 insider-trade record, with the fields `script.js` reads.
Numeric fields (`shares`, `price`, `totalValue`) are modelled as `Int`. -/
structure TradeRecord where
  type : String
  symbol : String
  name : String
  shares : Int
  price : Int
  totalValue : Int
  transactionDate : String
  filingDate : String
  deriving DecidableEq, Repr

/-- The upstream `items` field of a Form 8-K record: a list of item-code
strings, a comma-joined string, or absent (its shape is not guaranteed). -/
inductive ItemsField where
  | arr (codes : List String)
  | str (s : String)
  | absent
  deriving DecidableEq, Repr

/-- A Form 8-K filing record, with the fields `script.js` reads. -/
structure FilingRecord where
  symbol : String
  items : ItemsField
  reportDate : String
  filedDate : String
  acceptedDate : String
  deriving DecidableEq, Repr

/-- The fixed default watchlist of 77 symbols declared at the top of
`script.js` (`DEFAULT_WATCHLIST`). -/
def DEFAULT_WATCHLIST : List String :=
  ["MSFT", "NVDA", "TSLA", "GOOGL", "META", "AMZN", "NFLX", "AMD",
   "INTC", "COIN", "LYFT", "ORCL", "AVGO", "ADBE", "PYPL", "PLTR",
   "SMCI", "SOFI", "SMR", "GME", "HIMS", "CRWV", "XPEV", "HOOD",
   "OKLO", "ACHR", "IREN", "NBIS", "MU", "SNOW", "APP", "TSM",
   "ASTS", "MRVL", "BA", "PDD", "SOUN", "PANW", "TEM", "LLY",
   "ALGN", "SPOT", "CVNA", "SHOP", "DUOL", "NKE", "CSCO", "BULL",
   "JNJ", "LCID", "KO", "GE", "BE", "NEE", "PEP", "RR", "IONQ",
   "QCOM", "LNTH", "CFLT", "LMND", "JOBY", "CAT", "OPEN", "RIVN",
   "PFE", "CNC", "NVO", "NOW", "CVS", "ABT", "IBM", "JPM", "NVAX",
   "BRK-B", "UNH", "AAPL"]

/-- `applyCustomWatchlist` from `script.js`, as a function of the text-box
value: trim the input; if non-empty, split on commas, trim and uppercase
each token, and keep the non-empty ones; otherwise the watchlist is `[]`. -/
def applyCustomWatchlist (value : String) : List String :=
  let input := jsTrim value
  if input ≠ "" then
    ((jsSplit input ',').map (fun t => jsToUpper (jsTrim t))).filter (fun t => t ≠ "")
  else []

/-- Restated from the specification (§4.1) for comparison with
`applyCustomWatchlist`: "Splits on comma, trims whitespace from each token,
uppercases, drops empty tokens."  Note this splits the raw input string;
the implementation first trims the whole input. -/
def parseWatchlist (value : String) : List String :=
  ((jsSplit value ',').map (fun t => jsToUpper (jsTrim t))).filter (fun t => t ≠ "")

/-- The filter predicate applied to each trade inside `applyFilters`
(src/script.js lines 304-318).  `ticker` is the already-uppercased
ticker-search text; `watchlist` is `customWatchlistTickers`. -/
def tradeFilterPred (ftype ticker : String) (watchlist : List String)
    (minValue : Int) (trade : TradeRecord) : Bool :=
  if ftype ≠ "all" ∧ trade.type ≠ ftype then false
  else if ticker ≠ "" ∧ ¬ jsIncludes trade.symbol ticker then false
  else if watchlist ≠ [] ∧ trade.symbol ∉ watchlist then false
  else if trade.totalValue < minValue then false
  else true

/-- The comparator of the trade sort in `applyFilters` (lines 321-325),
read as "a may come before b": the JavaScript comparator returns
`b.key - a.key`, so `a` precedes `b` exactly when `b.key ≤ a.key`. -/
def tradeLe (jsDate : String → Int) (sortBy : String) (a b : TradeRecord) : Bool :=
  if sortBy = "value" then b.totalValue ≤ a.totalValue
  else if sortBy = "shares" then b.shares ≤ a.shares
  else jsDate b.filingDate ≤ jsDate a.filingDate

/-- The stable sort step of `applyFilters`, modelling
`filteredTrades.sort(...)`. -/
def sortTrades (jsDate : String → Int) (sortBy : String)
    (l : List TradeRecord) : List TradeRecord :=
  l.mergeSort (tradeLe jsDate sortBy)

/-- `applyFilters` from `script.js` as a function of the form-control
values (`ftype`, `tickerInput`, `minValue`, `sortBy`), the custom
watchlist and the current `tradesData`; returns the new `filteredTrades`. -/
def applyFilters (jsDate : String → Int) (ftype tickerInput : String)
    (watchlist : List String) (minValue : Int) (sortBy : String)
    (trades : List TradeRecord) : List TradeRecord :=
  let ticker := jsToUpper tickerInput
  sortTrades jsDate sortBy
    (trades.filter (tradeFilterPred ftype ticker watchlist minValue))

/-- The comparator of the filing sort in `renderForm8kTable` (lines 232-240),
read as "a may come before b": for `newest` the comparator returns
`dateB - dateA` (descending), otherwise `dateA - dateB` (ascending). -/
def filingLe (jsDate : String → Int) (sortOrder : String) (a b : FilingRecord) : Bool :=
  if sortOrder = "newest" then jsDate b.filedDate ≤ jsDate a.filedDate
  else jsDate a.filedDate ≤ jsDate b.filedDate

/-- The data pipeline of `renderForm8kTable` (lines 220-240): copy
`form8kData`, restrict to the custom watchlist when it is non-empty, and
stably sort by filed date in the requested order; returns `displayForm8k`. -/
def renderForm8kTable (jsDate : String → Int) (filings : List FilingRecord)
    (watchlist : List String) (sortOrder : String) : List FilingRecord :=
  let displayForm8k :=
    if 0 < watchlist.length then
      filings.filter (fun filing => watchlist.contains filing.symbol)
    else filings
  displayForm8k.mergeSort (filingLe jsDate sortOrder)

/-- The static item-code → explanation table inside `get8KExplanation`
(`itemExplanations`, lines 157-180). -/
def itemExplanations (code : String) : Option String :=
  match code with
  | "1.01" => some "Company signed an important contract"
  | "1.02" => some "Major contract terminated or cancelled"
  | "1.03" => some "🚨 Bankruptcy or receivership filing"
  | "2.01" => some "Acquired or sold significant business/assets"
  | "2.02" => some "Earnings release or financial results"
  | "2.03" => some "New debt issued (loans, bonds, credit)"
  | "2.04" => some "Debt acceleration or penalties triggered"
  | "2.05" => some "Restructuring, layoffs, or plant closures"
  | "2.06" => some "Large asset write-downs or impairments"
  | "3.01" => some "🚨 Risk of delisting from exchange"
  | "3.02" => some "Private stock sale (unregistered)"
  | "3.03" => some "Changes to shareholder rights or dividends"
  | "4.01" => some "Auditor changed (fired or resigned)"
  | "4.02" => some "🚩 Financial restatement likely - accounting issue"
  | "5.01" => some "Change in company ownership/control"
  | "5.02" => some "CEO/CFO or director change"
  | "5.03" => some "Corporate governance rules updated"
  | "5.04" => some "Employee stock trading temporarily suspended"
  | "5.05" => some "Code of ethics amended or waived"
  | "7.01" => some "Public disclosure of material information"
  | "8.01" => some "Other material event (lawsuit, investigation, etc.)"
  | "9.01" => some "Financial statements and exhibits attached"
  | _ => none

/-- The normalized item list used by `get8KExplanation` (lines 186-188):
the outer guard `filing.items && filing.items.length > 0` skips an absent
field, an empty array and an empty string; an array is used as-is and a
non-empty string is split on commas with each piece trimmed. -/
def form8kItems (filing : FilingRecord) : List String :=
  match filing.items with
  | .arr codes => if 0 < codes.length then codes else []
  | .str s => if 0 < s.data.length then (jsSplit s ',').map jsTrim else []
  | .absent => []

/-- The `descriptions` array built by the loop of `get8KExplanation`
(lines 193-201): each item is trimmed again, looked up in the table, and
unknown codes are silently skipped. -/
def get8KDescriptions (filing : FilingRecord) : List String :=
  (form8kItems filing).filterMap (fun item =>
    (itemExplanations (jsTrim item)).map (fun expl =>
      "<span class=\"item-code\">Item " ++ jsTrim item ++
        "</span><span class=\"item-description\">" ++ expl ++ "</span>"))

/-- `get8KExplanation` from `script.js` (lines 155-213): the joined
descriptions when at least one item code is known, and otherwise the
default explanation string. -/
def get8KExplanation (filing : FilingRecord) : String :=
  let descriptions := get8KDescriptions filing
  if 0 < descriptions.length then
    "<div style=\"line-height: 1.8;\">" ++ joinBr descriptions ++ "</div>"
  else
    "Material company event requiring SEC disclosure"

/-- The `stats` object of the trades JSON document, whose fields
`updateStats` displays directly. -/
structure StatsJson where
  totalAlerts : Int
  buys : Int
  sells : Int
  totalValue : Int
  deriving DecidableEq, Repr

/-- The trades JSON document: `{ trades: [...], stats: {...} }`; a missing
field is `none`. -/
structure TradesJson where
  trades : Option (List TradeRecord)
  stats : Option StatsJson
  deriving DecidableEq, Repr

/-- The filings JSON document: `{ filings: [...] }`; a missing field is
`none`. -/
structure Form8kJson where
  filings : Option (List FilingRecord)
  deriving DecidableEq, Repr

/-- The process-wide datasets `tradesData` and `form8kData`. -/
structure AppState where
  tradesData : List TradeRecord
  form8kData : List FilingRecord
  deriving DecidableEq, Repr

/-- The six summary numbers `updateStats` writes to the dashboard header
(lines 65-90), before display formatting. -/
structure SummaryView where
  totalAlerts : Int
  totalBuys : Int
  totalSells : Int
  totalValue : Int
  total8K : Nat
  activeTickers : Nat
  deriving DecidableEq, Repr

/-- `updateStats` from `script.js`: with no `stats` object it returns
early (the view keeps its previous values); otherwise `totalAlerts`,
`buys`, `sells` and `totalValue` are copied from the feed's `stats`
object, the 8-K count is the length of `form8kData`, and the active-ticker
count is the size of the set of symbols of both datasets. -/
def updateStats (stats : Option StatsJson) (trades : List TradeRecord)
    (filings : List FilingRecord) (prev : SummaryView) : SummaryView :=
  match stats with
  | none => prev
  | some s =>
    { totalAlerts := s.totalAlerts
      totalBuys := s.buys
      totalSells := s.sells
      totalValue := s.totalValue
      total8K := filings.length
      activeTickers := ((trades.map (fun t => t.symbol) ++
        filings.map (fun f => f.symbol)).dedup).length }

/-- Sum of `totalValue` over a trade list, as the specification's
"sum of totalValue across all trades" (§4.5); `updateStats` is compared
against it in claim C3. -/
def specSumTotalValue (trades : List TradeRecord) : Int :=
  (trades.map (fun t => t.totalValue)).sum

/-- The state transition of `loadData` (lines 28-63).  Each fetch+parse is
an `Except Unit` value: `.error` means the `await fetch`/`await json()`
pair threw.  The two fetches run in order inside one `try`: a trades
failure reaches the `catch` before `tradesData` is reassigned; a filings
failure reaches the `catch` after `tradesData` was already replaced.  The
returned flag is true exactly when the `catch` block ran and displayed the
"No data available" placeholder. -/
def loadData (tradesResult : Except Unit TradesJson)
    (form8kResult : Except Unit Form8kJson) (st : AppState) : AppState × Bool :=
  match tradesResult with
  | .error _ => (st, true)
  | .ok tradesJson =>
    let st1 : AppState := { st with tradesData := tradesJson.trades.getD [] }
    match form8kResult with
    | .error _ => (st1, true)
    | .ok form8kJson =>
      ({ st1 with form8kData := form8kJson.filings.getD [] }, false)

/-- The six counters of the value-distribution chart (`valueBuckets` in
`renderCharts`, lines 418-421): `<$50K`, `$50K-$100K`, `$100K-$500K`,
`$500K-$1M`, `$1M-$5M`, `>$5M`. -/
structure ValueBuckets where
  b0 : Nat
  b1 : Nat
  b2 : Nat
  b3 : Nat
  b4 : Nat
  b5 : Nat
  deriving DecidableEq, Repr

/-- One step of the bucket-counting loop of `renderCharts`
(lines 422-430): the if/else-if chain on `t.totalValue`. -/
def bumpBucket (vb : ValueBuckets) (val : Int) : ValueBuckets :=
  if val < 50000 then { vb with b0 := vb.b0 + 1 }
  else if val < 100000 then { vb with b1 := vb.b1 + 1 }
  else if val < 500000 then { vb with b2 := vb.b2 + 1 }
  else if val < 1000000 then { vb with b3 := vb.b3 + 1 }
  else if val < 5000000 then { vb with b4 := vb.b4 + 1 }
  else { vb with b5 := vb.b5 + 1 }

/-- The value histogram of `renderCharts` over the full `tradesData`. -/
def valueBuckets (trades : List TradeRecord) : ValueBuckets :=
  trades.foldl (fun vb t => bumpBucket vb t.totalValue) ⟨0, 0, 0, 0, 0, 0⟩

/-- Total count held in the six buckets. -/
def bucketTotal (vb : ValueBuckets) : Nat :=
  vb.b0 + vb.b1 + vb.b2 + vb.b3 + vb.b4 + vb.b5

/-! ## Helper lemmas about the string model -/

theorem trimChars_cons_ws {c : Char} (hc : c.isWhitespace) (l : List Char) :
    trimChars (c :: l) = trimChars l := by
  simp [trimChars, List.dropWhile_cons, hc]

theorem trimChars_append_ws {ws : List Char} (hws : ∀ c ∈ ws, c.isWhitespace)
    (l : List Char) : trimChars (l ++ ws) = trimChars l := by
  unfold trimChars
  rw [List.dropWhile_append]
  split
  · next h =>
    rw [List.dropWhile_eq_nil_iff.mpr hws]
    have hnil : l.dropWhile Char.isWhitespace = [] := by
      simpa [List.isEmpty_iff] using h
    rw [hnil]
  · rw [List.reverse_append, List.dropWhile_append,
      List.dropWhile_eq_nil_iff.mpr (by simpa using hws)]
    simp

theorem splitCharAux_ne_nil (sep : Char) :
    ∀ (l acc : List Char), splitCharAux l sep acc ≠ []
  | [], acc => by simp [splitCharAux]
  | c :: cs, acc => by
    rw [splitCharAux]
    split
    · simp
    · exact splitCharAux_ne_nil sep cs (c :: acc)

theorem splitCharAux_acc_eq (sep : Char) :
    ∀ (l acc : List Char),
      splitCharAux l sep acc =
        (acc.reverse ++ (splitCharAux l sep []).headD []) ::
          (splitCharAux l sep []).tail
  | [], acc => by simp [splitCharAux]
  | c :: cs, acc => by
    by_cases h : c == sep
    · simp [splitCharAux, h]
    · rw [splitCharAux, if_neg h, splitCharAux_acc_eq sep cs (c :: acc),
        show splitCharAux (c :: cs) sep [] = splitCharAux cs sep [c] by
          rw [splitCharAux, if_neg h],
        splitCharAux_acc_eq sep cs [c]]
      simp

theorem splitCharAux_no_sep {sep : Char} :
    ∀ {l : List Char}, (∀ c ∈ l, ¬ c = sep) → ∀ (acc : List Char),
      splitCharAux l sep acc = [acc.reverse ++ l]
  | [], _, acc => by simp [splitCharAux]
  | c :: cs, h, acc => by
    rw [splitCharAux, if_neg (by simpa using h c (by simp)),
      splitCharAux_no_sep (fun x hx => h x (by simp [hx])) (c :: acc)]
    simp

theorem ws_ne_comma {c : Char} (hc : c.isWhitespace) : ¬ c = ',' := by
  rintro rfl
  simp [Char.isWhitespace] at hc

theorem map_trim_split_ws_left {ws : List Char} (hws : ∀ c ∈ ws, c.isWhitespace)
    (l : List Char) :
      (splitCharAux (ws ++ l) ',' []).map trimChars =
        (splitCharAux l ',' []).map trimChars := by
  induction ws with
  | nil => rfl
  | cons c cs ih =>
    have hc : c.isWhitespace := hws c (by simp)
    have hcs : ∀ x ∈ cs, x.isWhitespace := fun x hx => hws x (by simp [hx])
    cases hsplit : splitCharAux (cs ++ l) ',' [] with
    | nil => exact absurd hsplit (splitCharAux_ne_nil ',' (cs ++ l) [])
    | cons H T =>
      rw [List.cons_append, splitCharAux,
        if_neg (by simpa using ws_ne_comma hc),
        splitCharAux_acc_eq ',' (cs ++ l) [c], hsplit, ← ih hcs, hsplit]
      simp only [List.headD_cons, List.tail_cons, List.reverse_cons,
        List.reverse_nil, List.nil_append, List.singleton_append, List.map_cons]
      rw [trimChars_cons_ws hc]

theorem map_trim_split_ws_right {ws : List Char} (hws : ∀ c ∈ ws, c.isWhitespace) :
    ∀ (l acc : List Char),
      (splitCharAux (l ++ ws) ',' acc).map trimChars =
        (splitCharAux l ',' acc).map trimChars
  | [], acc => by
    rw [List.nil_append, splitCharAux,
      splitCharAux_no_sep (fun c hc => ws_ne_comma (hws c hc)) acc]
    simp [trimChars_append_ws hws]
  | c :: cs, acc => by
    by_cases h : c == ','
    · rw [List.cons_append, splitCharAux, if_pos h, splitCharAux, if_pos h]
      simp only [List.map_cons]
      rw [map_trim_split_ws_right hws cs []]
    · rw [List.cons_append, splitCharAux, if_neg h, splitCharAux, if_neg h]
      exact map_trim_split_ws_right hws cs (c :: acc)

theorem exists_ws_decomp (l : List Char) :
    ∃ wsL wsR, (∀ c ∈ wsL, c.isWhitespace) ∧ (∀ c ∈ wsR, c.isWhitespace) ∧
      l = wsL ++ trimChars l ++ wsR := by
  refine ⟨l.takeWhile Char.isWhitespace,
    ((l.dropWhile Char.isWhitespace).reverse.takeWhile Char.isWhitespace).reverse,
    fun c hc => List.mem_takeWhile_imp hc,
    fun c hc => List.mem_takeWhile_imp (List.mem_reverse.mp hc), ?_⟩
  conv_lhs => rw [← List.takeWhile_append_dropWhile Char.isWhitespace l]
  rw [List.append_assoc]
  congr 1
  conv_lhs => rw [← List.reverse_reverse (l.dropWhile Char.isWhitespace),
    ← List.takeWhile_append_dropWhile Char.isWhitespace
      (l.dropWhile Char.isWhitespace).reverse]
  rw [List.reverse_append]
  rfl

theorem map_trim_split_trim (l : List Char) :
    (splitCharAux l ',' []).map trimChars =
      (splitCharAux (trimChars l) ',' []).map trimChars := by
  obtain ⟨wsL, wsR, hL, hR, hdecomp⟩ := exists_ws_decomp l
  conv_lhs => rw [hdecomp, List.append_assoc]
  rw [map_trim_split_ws_left hL, map_trim_split_ws_right hR]

theorem watchlist_pipeline_trim (s : String) :
    ((jsSplit s ',').map (fun t => jsToUpper (jsTrim t))).filter (fun t => t ≠ "") =
      ((jsSplit (jsTrim s) ',').map (fun t => jsToUpper (jsTrim t))).filter
        (fun t => t ≠ "") := by
  unfold jsSplit
  rw [List.map_map, List.map_map]
  have hcomp : ((fun t => jsToUpper (jsTrim t)) ∘ (fun l => (⟨l⟩ : String))) =
      (fun m => (⟨List.map Char.toUpper m⟩ : String)) ∘ trimChars := rfl
  rw [hcomp, ← List.map_map, ← List.map_map]
  have hdata : (jsTrim s).data = trimChars s.data := rfl
  rw [hdata, map_trim_split_trim]

/-! ## Claim C4 -/

/-- Claim C4: for every input string, the watchlist parser splits on commas,
trims and uppercases each token and drops the empty ones (stated as:
`applyCustomWatchlist` agrees everywhere with the specification-side
`parseWatchlist`, which does exactly that to the raw input); in particular
`""` and `"   "` give the empty watchlist and `"aapl, msft ,, nvda"` gives
`[AAPL, MSFT, NVDA]`. -/
theorem C4_parseWatchlist_correct :
    (∀ s, applyCustomWatchlist s = parseWatchlist s) ∧
      applyCustomWatchlist "" = [] ∧
      applyCustomWatchlist "   " = [] ∧
      applyCustomWatchlist "aapl, msft ,, nvda" = ["AAPL", "MSFT", "NVDA"] := by
  refine ⟨?_, by decide, by decide, by decide⟩
  intro s
  simp only [applyCustomWatchlist, parseWatchlist]
  by_cases h : jsTrim s = ""
  · rw [if_neg (by simpa using h), watchlist_pipeline_trim s, h]
    decide
  · rw [if_pos (by simpa using h)]
    exact (watchlist_pipeline_trim s).symm

/-! ## Helper lemmas about the trade pipeline -/

theorem tradeFilterPred_iff (ftype ticker : String) (wl : List String)
    (mv : Int) (t : TradeRecord) :
    tradeFilterPred ftype ticker wl mv t = true ↔
      ((ftype = "all" ∨ t.type = ftype) ∧
        (ticker = "" ∨ jsIncludes t.symbol ticker = true) ∧
        (wl = [] ∨ t.symbol ∈ wl) ∧
        mv ≤ t.totalValue) := by
  unfold tradeFilterPred
  split_ifs with h1 h2 h3 h4
  all_goals simp_all
  all_goals tauto

theorem mem_applyFilters (jsDate : String → Int) (ftype tickerInput : String)
    (wl : List String) (mv : Int) (sortBy : String) (trades : List TradeRecord)
    (t : TradeRecord) :
    t ∈ applyFilters jsDate ftype tickerInput wl mv sortBy trades ↔
      t ∈ trades ∧ tradeFilterPred ftype (jsToUpper tickerInput) wl mv t = true := by
  simp only [applyFilters, sortTrades, List.mem_mergeSort, List.mem_filter]

theorem tradeLe_value_trans (jsDate : String → Int) :
    ∀ a b c, tradeLe jsDate "value" a b = true → tradeLe jsDate "value" b c = true →
      tradeLe jsDate "value" a c = true := by
  intro a b c
  simp [tradeLe]
  omega

theorem tradeLe_total (jsDate : String → Int) (sortBy : String) :
    ∀ a b, (tradeLe jsDate sortBy a b || tradeLe jsDate sortBy b a) = true := by
  intro a b
  simp only [tradeLe]
  split_ifs <;> simp <;> omega

/-! ## Claim C1 -/

/-- Claim C1: for every trades list and every criteria, the output of the
trade filter/sort pipeline is a permutation of exactly the input records
satisfying the filter predicate (none added, none dropped beyond the
predicate, none duplicated), and a record is in the output exactly when it
is an input record satisfying the four conditions of §4.2: type matches or
the type filter is `all`; the uppercased ticker substring is empty or
contained in the symbol; the watchlist is empty or contains the symbol;
and `totalValue ≥ minValue`. -/
theorem C1_applyFilters_correct :
    ∀ (jsDate : String → Int) (ftype tickerInput : String) (wl : List String)
      (mv : Int) (sortBy : String) (trades : List TradeRecord),
      (applyFilters jsDate ftype tickerInput wl mv sortBy trades).Perm
        (trades.filter (tradeFilterPred ftype (jsToUpper tickerInput) wl mv)) ∧
      ∀ t, t ∈ applyFilters jsDate ftype tickerInput wl mv sortBy trades ↔
        t ∈ trades ∧ (ftype = "all" ∨ t.type = ftype) ∧
          (jsToUpper tickerInput = "" ∨
            jsIncludes t.symbol (jsToUpper tickerInput) = true) ∧
          (wl = [] ∨ t.symbol ∈ wl) ∧ mv ≤ t.totalValue := by
  intro jsDate ftype tickerInput wl mv sortBy trades
  constructor
  · simpa only [applyFilters, sortTrades] using
      List.mergeSort_perm
        (trades.filter (tradeFilterPred ftype (jsToUpper tickerInput) wl mv))
        (tradeLe jsDate sortBy)
  · intro t
    rw [mem_applyFilters, tradeFilterPred_iff]

/-! ## Claim C8 -/

/-- Claim C8: the trade sort is stable for the `value` key: two trades with
identical `totalValue` that occur in a given relative order in the input
occur in the same relative order in the sorted output. -/
theorem C8_value_sort_stable :
    ∀ (jsDate : String → Int) (l : List TradeRecord) (a b : TradeRecord),
      [a, b].Sublist l → a.totalValue = b.totalValue →
      [a, b].Sublist (sortTrades jsDate "value" l) := by
  intro jsDate l a b hsub heq
  exact List.pair_sublist_mergeSort (tradeLe_value_trans jsDate)
    (tradeLe_total jsDate "value") (by simp [tradeLe]; omega) hsub

/-- Witness for C8: two concrete trades with equal `totalValue` keep their
relative order through the value sort. -/
theorem C8_value_sort_stable_witness :
    [(⟨"BUY", "AAPL", "a", 1, 1, 100, "2024-01-01", "2024-01-02"⟩ : TradeRecord),
     (⟨"SELL", "MSFT", "b", 2, 2, 100, "2024-01-03", "2024-01-04"⟩ : TradeRecord)].Sublist
      (sortTrades (fun _ => 0) "value"
        [⟨"BUY", "AAPL", "a", 1, 1, 100, "2024-01-01", "2024-01-02"⟩,
         ⟨"SELL", "MSFT", "b", 2, 2, 100, "2024-01-03", "2024-01-04"⟩]) :=
  C8_value_sort_stable (fun _ => 0) _ _ _ (List.Sublist.refl _) rfl

/-! ## Helper lemmas about the filing pipeline -/

theorem mem_renderForm8kTable (jsDate : String → Int) (filings : List FilingRecord)
    (wl : List String) (sortOrder : String) (f : FilingRecord) :
    f ∈ renderForm8kTable jsDate filings wl sortOrder ↔
      f ∈ filings ∧ (wl = [] ∨ f.symbol ∈ wl) := by
  simp only [renderForm8kTable, List.mem_mergeSort]
  split_ifs with h
  · have hne : wl ≠ [] := by
      intro hnil
      rw [hnil] at h
      simp at h
    simp [List.mem_filter, hne]
  · have hnil : wl = [] := by
      cases wl with
      | nil => rfl
      | cons a as => simp at h
    simp [hnil]

theorem filingLe_trans (jsDate : String → Int) (sortOrder : String) :
    ∀ a b c, filingLe jsDate sortOrder a b = true → filingLe jsDate sortOrder b c = true →
      filingLe jsDate sortOrder a c = true := by
  intro a b c
  simp only [filingLe]
  split_ifs <;> (intro h1 h2; simp_all; omega)

theorem filingLe_total (jsDate : String → Int) (sortOrder : String) :
    ∀ a b, (filingLe jsDate sortOrder a b || filingLe jsDate sortOrder b a) = true := by
  intro a b
  simp only [filingLe]
  split_ifs <;> simp <;> omega

/-! ## Claim C6 -/

/-- Claim C6: for every filings list, watchlist and sort order, the filing
pipeline keeps exactly the filings passing the watchlist rule (an empty
watchlist keeps all, a non-empty one keeps exact symbol members), and the
output is ordered by parsed `filedDate` — non-increasing for `newest`,
non-decreasing for `oldest`. -/
theorem C6_form8k_pipeline :
    ∀ (jsDate : String → Int) (filings : List FilingRecord) (wl : List String),
      (∀ sortOrder, (renderForm8kTable jsDate filings wl sortOrder).Perm
          (if wl = [] then filings
           else filings.filter (fun f => wl.contains f.symbol)) ∧
        ∀ f, f ∈ renderForm8kTable jsDate filings wl sortOrder ↔
          f ∈ filings ∧ (wl = [] ∨ f.symbol ∈ wl)) ∧
      (renderForm8kTable jsDate filings wl "newest").Pairwise
        (fun a b => jsDate b.filedDate ≤ jsDate a.filedDate) ∧
      (renderForm8kTable jsDate filings wl "oldest").Pairwise
        (fun a b => jsDate a.filedDate ≤ jsDate b.filedDate) := by
  intro jsDate filings wl
  refine ⟨fun sortOrder =>
    ⟨?_, fun f => mem_renderForm8kTable jsDate filings wl sortOrder f⟩, ?_, ?_⟩
  · simp only [renderForm8kTable]
    by_cases hw : wl = []
    · simp only [hw, List.length_nil, lt_irrefl, if_neg, if_pos]
      simpa [hw] using List.mergeSort_perm filings (filingLe jsDate sortOrder)
    · have hlen : 0 < wl.length := List.length_pos.mpr hw
      simp only [if_pos hlen, if_neg hw]
      exact List.mergeSort_perm _ _
  · simp only [renderForm8kTable]
    exact (List.sorted_mergeSort (filingLe_trans jsDate "newest")
      (filingLe_total jsDate "newest") _).imp (by simp [filingLe])
  · simp only [renderForm8kTable]
    refine (List.sorted_mergeSort (filingLe_trans jsDate "oldest")
      (filingLe_total jsDate "oldest") _).imp ?_
    intro a b hab
    simpa [filingLe] using hab

/-! ## Claim C7 -/

theorem bucketTotal_bump (vb : ValueBuckets) (val : Int) :
    bucketTotal (bumpBucket vb val) = bucketTotal vb + 1 := by
  unfold bumpBucket bucketTotal
  split_ifs
  all_goals simp
  all_goals omega

theorem valueBuckets_total_aux :
    ∀ (trades : List TradeRecord) (vb : ValueBuckets),
      bucketTotal (trades.foldl (fun vb t => bumpBucket vb t.totalValue) vb) =
        bucketTotal vb + trades.length
  | [], vb => by simp
  | t :: ts, vb => by
    rw [List.foldl_cons, valueBuckets_total_aux ts, bucketTotal_bump]
    simp
    omega

/-- Claim C7: the value histogram assigns every trade to exactly one of the
six fixed buckets with lower-half-open boundaries (each counting step adds
one exactly to the bucket whose range holds `totalValue`), the bucket
counts sum to the number of trades, and in particular a trade with
`totalValue = 50000` lands in the second bucket and one with
`totalValue = 5000000` in the last. -/
theorem C7_value_histogram :
    (∀ (vb : ValueBuckets) (val : Int),
      (bumpBucket vb val).b0 = vb.b0 + (if val < 50000 then 1 else 0) ∧
      (bumpBucket vb val).b1 = vb.b1 + (if 50000 ≤ val ∧ val < 100000 then 1 else 0) ∧
      (bumpBucket vb val).b2 = vb.b2 + (if 100000 ≤ val ∧ val < 500000 then 1 else 0) ∧
      (bumpBucket vb val).b3 = vb.b3 + (if 500000 ≤ val ∧ val < 1000000 then 1 else 0) ∧
      (bumpBucket vb val).b4 = vb.b4 + (if 1000000 ≤ val ∧ val < 5000000 then 1 else 0) ∧
      (bumpBucket vb val).b5 = vb.b5 + (if 5000000 ≤ val then 1 else 0)) ∧
    (∀ trades : List TradeRecord,
      bucketTotal (valueBuckets trades) = trades.length) ∧
    valueBuckets [⟨"BUY", "AAPL", "a", 1, 1, 50000, "d", "d"⟩] = ⟨0, 1, 0, 0, 0, 0⟩ ∧
    valueBuckets [⟨"BUY", "AAPL", "a", 1, 1, 5000000, "d", "d"⟩] = ⟨0, 0, 0, 0, 0, 1⟩ := by
  refine ⟨?_, ?_, by decide, by decide⟩
  · intro vb val
    unfold bumpBucket
    split_ifs
    all_goals simp_all
    all_goals omega
  · intro trades
    rw [valueBuckets, valueBuckets_total_aux]
    simp [bucketTotal]

/-! ## Claim C2 -/

theorem get8KExplanation_eq (filing : FilingRecord) :
    get8KExplanation filing =
      if 0 < (get8KDescriptions filing).length then
        "<div style=\"line-height: 1.8;\">" ++ joinBr (get8KDescriptions filing) ++ "</div>"
      else "Material company event requiring SEC disclosure" := rfl

theorem get8KExplanation_ne_empty (filing : FilingRecord) :
    get8KExplanation filing ≠ "" := by
  rw [get8KExplanation_eq]
  split_ifs with h
  · intro hcontra
    have hlen := congrArg String.length hcontra
    rw [String.length_append, String.length_append] at hlen
    have hpos : 0 < ("<div style=\"line-height: 1.8;\">" : String).length := by decide
    simp at hlen
    omega
  · decide

/-- Claim C2 (counterexample): on an empty item list the explanation is the
string without a trailing period, so it is not the claimed fallback string
"Material company event requiring SEC disclosure." (with the period). -/
theorem C2_counterexample :
    get8KExplanation ⟨"AAPL", .arr [], "Unknown", "Unknown", "Unknown"⟩ ≠
        "Material company event requiring SEC disclosure." ∧
      get8KExplanation ⟨"AAPL", .arr [], "Unknown", "Unknown", "Unknown"⟩ =
        "Material company event requiring SEC disclosure" := ⟨by decide, by decide⟩

set_option maxRecDepth 8192 in
/-- Claim C2 (amended): the filing explanation is total — for every filing,
including empty item lists, unknown codes and comma-joined string items, it
returns a non-empty string — and whenever no item code matches the table it
returns exactly "Material company event requiring SEC disclosure" (no
trailing period); the comma-joined string form "2.02, 8.01" produces the
two matching explanations. -/
theorem C2_explanation_total :
    (∀ filing : FilingRecord, get8KExplanation filing ≠ "" ∧
      (get8KDescriptions filing = [] →
        get8KExplanation filing = "Material company event requiring SEC disclosure")) ∧
    get8KExplanation ⟨"AAPL", .str "2.02, 8.01", "Unknown", "Unknown", "Unknown"⟩ =
      "<div style=\"line-height: 1.8;\"><span class=\"item-code\">Item 2.02</span><span class=\"item-description\">Earnings release or financial results</span><br><span class=\"item-code\">Item 8.01</span><span class=\"item-description\">Other material event (lawsuit, investigation, etc.)</span></div>" := by
  refine ⟨fun filing => ⟨get8KExplanation_ne_empty filing, fun h => ?_⟩, by decide⟩
  rw [get8KExplanation_eq, h]
  simp

/-- Witness for C2: a filing whose only item code is unknown ("9.99") has no
descriptions, and the theorem yields the fallback string for it. -/
theorem C2_explanation_total_witness :
    get8KExplanation ⟨"XX", .arr ["9.99"], "Unknown", "Unknown", "Unknown"⟩ =
      "Material company event requiring SEC disclosure" :=
  (C2_explanation_total.1 ⟨"XX", .arr ["9.99"], "Unknown", "Unknown", "Unknown"⟩).2
    (by decide)

/-! ## Claim C3 -/

/-- Claim C3 (counterexample): the displayed total value is the `totalValue`
field of the feed's `stats` object, so with a stats object reporting 999
over a dataset whose trades sum to 5 the reported total differs from the
sum of `totalValue` over all trades in the current dataset. -/
theorem C3_counterexample :
    (updateStats (some ⟨1, 1, 0, 999⟩) [⟨"BUY", "AAPL", "a", 1, 5, 5, "d", "d"⟩] []
        ⟨0, 0, 0, 0, 0, 0⟩).totalValue ≠
      specSumTotalValue [⟨"BUY", "AAPL", "a", 1, 5, 5, "d", "d"⟩] := by decide

/-- Claim C3 (amended): the reported total value (and the alert/buy/sell
counts) are copied from the feed's `stats` object rather than computed from
the trades; only the filing count and the distinct-symbol count are
computed, and those are computed over the full unfiltered datasets; with no
stats object the summary keeps its previous values. -/
theorem C3_stats_from_feed :
    (∀ (stats : StatsJson) (trades : List TradeRecord) (filings : List FilingRecord)
        (prev : SummaryView),
      updateStats (some stats) trades filings prev =
        ⟨stats.totalAlerts, stats.buys, stats.sells, stats.totalValue, filings.length,
          ((trades.map (fun t => t.symbol) ++
            filings.map (fun f => f.symbol)).dedup).length⟩) ∧
    (∀ (trades : List TradeRecord) (filings : List FilingRecord) (prev : SummaryView),
      updateStats none trades filings prev = prev) :=
  ⟨fun _ _ _ _ => rfl, fun _ _ _ => rfl⟩

/-! ## Claim C5 -/

/-- Claim C5 (counterexample): with no watchlist override (the custom
watchlist is the empty list), a trade whose symbol "ZZZZ" is not in
`DEFAULT_WATCHLIST` still passes the trade pipeline — the default list does
not restrict which records are in scope. -/
theorem C5_counterexample :
    "ZZZZ" ∉ DEFAULT_WATCHLIST ∧
    (⟨"BUY", "ZZZZ", "x", 1, 1, 1, "2024-01-01", "2024-01-01"⟩ : TradeRecord) ∈
      applyFilters (fun _ => 0) "all" "" [] 0 "value"
        [⟨"BUY", "ZZZZ", "x", 1, 1, 1, "2024-01-01", "2024-01-01"⟩] := by
  constructor
  · decide
  · rw [mem_applyFilters]
    exact ⟨List.mem_singleton_self _, by decide⟩

/-- Claim C5 (amended): when the user has supplied no watchlist override the
custom watchlist is empty and no watchlist restriction is applied at all:
membership in the trade output depends only on the other three filter
conditions, the filing pipeline keeps every filing, and in particular a
record whose symbol is outside the fixed `DEFAULT_WATCHLIST` (which the
filters never consult) stays in scope. -/
theorem C5_no_default_restriction :
    (∀ (jsDate : String → Int) (ftype tickerInput : String) (mv : Int)
        (sortBy : String) (trades : List TradeRecord) (t : TradeRecord),
      t ∈ applyFilters jsDate ftype tickerInput [] mv sortBy trades ↔
        t ∈ trades ∧ (ftype = "all" ∨ t.type = ftype) ∧
          (jsToUpper tickerInput = "" ∨
            jsIncludes t.symbol (jsToUpper tickerInput) = true) ∧
          mv ≤ t.totalValue) ∧
    (∀ (jsDate : String → Int) (filings : List FilingRecord) (sortOrder : String)
        (f : FilingRecord),
      f ∈ renderForm8kTable jsDate filings [] sortOrder ↔ f ∈ filings) ∧
    (∃ t : TradeRecord, t.symbol ∉ DEFAULT_WATCHLIST ∧
      t ∈ applyFilters (fun _ => 0) "all" "" [] 0 "value" [t]) := by
  refine ⟨?_, ?_, ⟨"BUY", "YYYY", "x", 1, 1, 1, "d", "d"⟩, by decide, ?_⟩
  · intro jsDate ftype tickerInput mv sortBy trades t
    rw [mem_applyFilters, tradeFilterPred_iff]
    simp
  · intro jsDate filings sortOrder f
    rw [mem_renderForm8kTable]
    simp
  · rw [mem_applyFilters]
    exact ⟨List.mem_singleton_self _, by decide⟩

/-! ## Claim C9 -/

/-- Claim C9 (counterexample): a failure of the second (filings) fetch is a
fetch failure on which the no-data placeholder is shown, yet `tradesData`
is not left at its previous value — it was already replaced by the newly
fetched trades before the failure. -/
theorem C9_counterexample :
    (loadData (.ok ⟨some [⟨"BUY", "MSFT", "n", 1, 2, 2, "d", "d"⟩], none⟩) (.error ())
        ⟨[⟨"BUY", "AAPL", "o", 1, 1, 1, "d", "d"⟩], []⟩).2 = true ∧
    (loadData (.ok ⟨some [⟨"BUY", "MSFT", "n", 1, 2, 2, "d", "d"⟩], none⟩) (.error ())
        ⟨[⟨"BUY", "AAPL", "o", 1, 1, 1, "d", "d"⟩], []⟩).1.tradesData ≠
      [⟨"BUY", "AAPL", "o", 1, 1, 1, "d", "d"⟩] := ⟨rfl, by decide⟩

/-- Claim C9 (amended): on a trades fetch/parse failure both datasets keep
their previous values (or stay empty on a first load) and the explicit
no-data signal is raised instead of an uncaught throw; on a filings
fetch/parse failure the filings dataset keeps its previous value but
`tradesData` has already been replaced by the newly fetched trades; in
both cases `loadData` returns normally, so the refresh timer continues. -/
theorem C9_fetch_failure :
    (∀ (fr : Except Unit Form8kJson) (st : AppState),
      loadData (.error ()) fr st = (st, true)) ∧
    (∀ (tj : TradesJson) (st : AppState),
      loadData (.ok tj) (.error ()) st =
        ({ st with tradesData := tj.trades.getD [] }, true)) :=
  ⟨fun _ _ => rfl, fun _ _ => rfl⟩

/-! ## Claim C10 -/

/-- Claim C10: when both fetches succeed but a document is missing its
`trades` (or `filings`) field, the corresponding dataset is silently
replaced by the empty list — the previous data is discarded and the
no-data signal is not raised. -/
theorem C10_missing_fields :
    ∀ (st : AppState) (stats : Option StatsJson) (fj : Form8kJson) (tj : TradesJson),
      loadData (.ok ⟨none, stats⟩) (.ok fj) st = (⟨[], fj.filings.getD []⟩, false) ∧
      (loadData (.ok tj) (.ok ⟨none⟩) st).1.form8kData = [] ∧
      (loadData (.ok tj) (.ok ⟨none⟩) st).2 = false := by
  intro st stats fj tj
  exact ⟨rfl, rfl, rfl⟩
